import Mathlib

/-!
Verification of the SQL chatbot script (src/stl.py) against its
specification.  The script is embedded shallowly: the external effects
(database driver, language-model endpoint) are supplied as oracles in a
`TurnEnv`, and every piece of pure logic (string stripping, fenced-block
extraction, error-message formatting, the per-turn control flow of the
chat input handler) is translated directly from the source.
-/

/-- Whitespace predicate of Python's str.strip (ASCII range). -/
def isPyWs (c : Char) : Bool :=
  c == ' ' || c == '\t' || c == '\n' || c == '\r' || c == Char.ofNat 11 || c == Char.ofNat 12

/-- Remove trailing Python whitespace. -/
def stripEnd (s : List Char) : List Char :=
  (s.reverse.dropWhile isPyWs).reverse

/-- Model of Python str.strip: drop leading and trailing whitespace. -/
def pyStrip (s : List Char) : List Char :=
  stripEnd (s.dropWhile isPyWs)

/-- The backtick character. -/
def btick : Char := Char.ofNat 96

/-- Opening delimiter of the fenced block in the regex of stl.py line 113,
the literal text of three backticks, then sql, then a newline. -/
def openPat : List Char := [btick, btick, btick, 's', 'q', 'l', '\n']

/-- Closing delimiter of the fenced block: a newline then three backticks. -/
def closePat : List Char := ['\n', btick, btick, btick]

/-- Index of the first occurrence of pat in s, if any (leftmost match,
as re.search finds it). -/
def firstOcc (pat : List Char) : List Char → Option Nat
  | [] => if pat.isEmpty then some 0 else none
  | c :: rest =>
    if pat.isPrefixOf (c :: rest) then some 0
    else (firstOcc pat rest).map (· + 1)

/-- Semantics of re.search of the pattern of stl.py line 113 under
re.DOTALL: the group captured between the leftmost opening delimiter and
the first closing delimiter after it, when both are present. -/
def extractFenced (s : List Char) : Option (List Char) :=
  match firstOcc openPat s with
  | none => none
  | some i =>
    match firstOcc closePat (s.drop (i + openPat.length)) with
    | none => none
    | some k => some ((s.drop (i + openPat.length)).take k)

/-- Lines 110-119 of stl.py: strip the model reply, extract the fenced
SQL block if one is present (stripping the captured group), otherwise
keep the whole stripped reply. -/
def extract_sql (content : List Char) : List Char :=
  let sql_response := pyStrip content
  match extractFenced sql_response with
  | some g => pyStrip g
  | none => sql_response

/-- Role tag of a conversation entry. -/
inductive Role
  | user
  | assistant
deriving DecidableEq

/-- One entry of st.session_state.messages. -/
structure Msg where
  role : Role
  content : List Char
deriving DecidableEq

/-- One column record as returned by inspector.get_columns: the code
reads its name field; ctype stands for the remaining fields. -/
structure Col where
  name : List Char
  ctype : List Char
deriving DecidableEq

/-- The schema mapping built by get_db_schema: table name to ordered
column names (a Python dict preserves insertion order). -/
abbrev Schema := List (List Char × List (List Char))

/-- Result of pd.read_sql: a tabular structure. -/
structure DataFrame where
  cols : List (List Char)
  rows : List (List (List Char))
deriving DecidableEq

/-- The session state of the script: the saved connection string and the
message history. -/
structure SessionState where
  connection_string : List Char
  messages : List Msg
deriving DecidableEq

/-- External world of one turn: the database driver and the language
model endpoint, as oracles.  introspect is the engine creation plus
table/column enumeration inside get_db_schema (error means the driver
raised); llmGenerate is the completion call of generate_sql, a function
of the question and the schema argument embedded in its prompt;
dbExec is the engine creation plus pd.read_sql inside execute_sql;
llmSummarize is the completion call of summarize_results. -/
structure TurnEnv where
  introspect : List Char → Except (List Char) (List (List Char × List Col))
  llmGenerate : List Char → Sum Schema (List Char) → Except (List Char) (List Char)
  dbExec : List Char → List Char → Except (List Char) DataFrame
  llmSummarize : DataFrame → Except (List Char) (List Char)

/-- Error text of get_db_schema line 86. -/
def connErrMsg (e : List Char) : List Char := "Error connecting to database: ".data ++ e

/-- Error text of execute_sql line 127. -/
def execErrMsg (e : List Char) : List Char := "Error executing query: ".data ++ e

/-- Error text of the top-level handler, line 173. -/
def processErrMsg (e : List Char) : List Char := "Error processing request: ".data ++ e

/-- Content of the placeholder assistant entry appended at line 159. -/
def placeholderContent : List Char := " ".data

/-- Validation message shown by st.error at line 147. -/
def noConnMsg : List Char := "Please save a valid connection string first".data

/-- Lines 76-86 of stl.py: build the table-to-columns mapping, or turn
any driver exception into an error string on the same return channel. -/
def get_db_schema (env : TurnEnv) (connection_string : List Char) :
    Sum Schema (List Char) :=
  match env.introspect connection_string with
  | .ok tables => .inl (tables.map fun t => (t.1, t.2.map Col.name))
  | .error e => .inr (connErrMsg e)

/-- Lines 89-119 of stl.py: call the model (an exception propagates to
the caller) and post-process the reply with extract_sql. -/
def generate_sql (env : TurnEnv) (natural_query : List Char)
    (schema : Sum Schema (List Char)) : Except (List Char) (List Char) :=
  (env.llmGenerate natural_query schema).map extract_sql

/-- Lines 121-127 of stl.py: run the statement, or turn any exception
into an error string on the same return channel. -/
def execute_sql (env : TurnEnv) (connection_string sql_query : List Char) :
    Sum DataFrame (List Char) :=
  match env.dbExec connection_string sql_query with
  | .ok df => .inl df
  | .error e => .inr (execErrMsg e)

/-- Lines 129-136 of stl.py: call the model on the serialized table (an
exception propagates) and strip the reply. -/
def summarize_results (env : TurnEnv) (results : DataFrame) :
    Except (List Char) (List Char) :=
  (env.llmSummarize results).map pyStrip

/-- Observable outcome of one chat turn: the new session state, the
validation banner if shown, and the arguments of the component calls
that were made (none when the component was not reached). -/
structure TurnOut where
  state : SessionState
  banner : Option (List Char)
  genArg : Option (List Char × Sum Schema (List Char))
  execArg : Option (List Char × List Char)
  sumArg : Option DataFrame
deriving DecidableEq

/-- Lines 145-175 of stl.py, the chat input handler for one submitted
prompt: reject when no connection string is saved; otherwise append the
user entry, fetch the schema, generate SQL (an exception goes to the
top-level handler), append the placeholder entry, execute, and append
either the summary, the executor's error string, or the top-level
handler's generic error. -/
def chatTurn (env : TurnEnv) (st : SessionState) (prompt : List Char) : TurnOut :=
  if st.connection_string.isEmpty then
    ⟨st, some noConnMsg, none, none, none⟩
  else
    let msgs1 := st.messages ++ [⟨Role.user, prompt⟩]
    let schema := get_db_schema env st.connection_string
    match generate_sql env prompt schema with
    | .error e =>
      ⟨⟨st.connection_string, msgs1 ++ [⟨Role.assistant, processErrMsg e⟩]⟩,
        none, some (prompt, schema), none, none⟩
    | .ok sql_query =>
      let msgs2 := msgs1 ++ [⟨Role.assistant, placeholderContent⟩]
      match execute_sql env st.connection_string sql_query with
      | .inl results =>
        match summarize_results env results with
        | .ok summary =>
          ⟨⟨st.connection_string, msgs2 ++ [⟨Role.assistant, summary⟩]⟩,
            none, some (prompt, schema), some (st.connection_string, sql_query),
            some results⟩
        | .error e =>
          ⟨⟨st.connection_string, msgs2 ++ [⟨Role.assistant, processErrMsg e⟩]⟩,
            none, some (prompt, schema), some (st.connection_string, sql_query),
            some results⟩
      | .inr err =>
        ⟨⟨st.connection_string, msgs2 ++ [⟨Role.assistant, err⟩]⟩,
          none, some (prompt, schema), some (st.connection_string, sql_query), none⟩

/-- Lines 71-73 of stl.py: the Save Connection button stores the text
input in session state. -/
def saveConnection (st : SessionState) (input : List Char) : SessionState :=
  ⟨input, st.messages⟩

/-! Characterization of firstOcc: it returns the index of the leftmost
occurrence, in the sense of the prefix order on suffixes. -/

/-- A successful firstOcc points at an occurrence. -/
theorem firstOcc_some_occurs {pat : List Char} (hp : pat ≠ []) :
    ∀ (s : List Char) (i : Nat), firstOcc pat s = some i → pat <+: s.drop i := by
  intro s
  induction s with
  | nil =>
    intro i h
    simp [firstOcc, List.isEmpty_iff, hp] at h
  | cons c rest ih =>
    intro i h
    unfold firstOcc at h
    split at h
    · cases h
      exact List.isPrefixOf_iff_prefix.mp (by assumption)
    · obtain ⟨n, hn, rfl⟩ := Option.map_eq_some'.mp h
      exact ih n hn

/-- A successful firstOcc points at the leftmost occurrence. -/
theorem firstOcc_some_min {pat : List Char} :
    ∀ (s : List Char) (i : Nat), firstOcc pat s = some i →
      ∀ j, j < i → ¬ pat <+: s.drop j := by
  intro s
  induction s with
  | nil =>
    intro i h j hj
    unfold firstOcc at h
    split at h
    · cases h; omega
    · cases h
  | cons c rest ih =>
    intro i h j hj
    unfold firstOcc at h
    split at h
    · cases h; omega
    · obtain ⟨n, hn, rfl⟩ := Option.map_eq_some'.mp h
      cases j with
      | zero =>
        intro hpre
        rename_i hcond
        exact absurd (List.isPrefixOf_iff_prefix.mpr hpre) (by simpa using hcond)
      | succ j' =>
        exact ih n hn j' (by omega)

/-- A failing firstOcc means there is no occurrence at all. -/
theorem firstOcc_none {pat : List Char} (hp : pat ≠ []) :
    ∀ (s : List Char), firstOcc pat s = none → ∀ i, ¬ pat <+: s.drop i := by
  intro s
  induction s with
  | nil =>
    intro _ i hpre
    rw [List.drop_nil] at hpre
    exact hp (List.prefix_nil.mp hpre)
  | cons c rest ih =>
    intro h i
    unfold firstOcc at h
    split at h
    · cases h
    · cases i with
      | zero =>
        intro hpre
        rename_i hcond
        exact absurd (List.isPrefixOf_iff_prefix.mpr hpre) (by simpa using hcond)
      | succ i' =>
        have hrest : firstOcc pat rest = none := by
          cases hr : firstOcc pat rest with
          | none => rfl
          | some n => rw [hr] at h; cases h
        exact ih hrest i'

/-- Converse: an occurrence that is leftmost is what firstOcc returns. -/
theorem firstOcc_eq_some {pat : List Char} (hp : pat ≠ []) :
    ∀ (s : List Char) (i : Nat), pat <+: s.drop i →
      (∀ j, j < i → ¬ pat <+: s.drop j) → firstOcc pat s = some i := by
  intro s
  induction s with
  | nil =>
    intro i hpre _
    rw [List.drop_nil] at hpre
    exact absurd (List.prefix_nil.mp hpre) hp
  | cons c rest ih =>
    intro i hpre hmin
    cases i with
    | zero =>
      rw [List.drop_zero] at hpre
      unfold firstOcc
      rw [if_pos (List.isPrefixOf_iff_prefix.mpr hpre)]
    | succ i' =>
      have hnot : ¬ pat <+: (c :: rest) := by simpa using hmin 0 (by omega)
      unfold firstOcc
      rw [if_neg (fun hb => hnot (List.isPrefixOf_iff_prefix.mp hb))]
      have : firstOcc pat rest = some i' := by
        apply ih i' (by simpa using hpre)
        intro j hj
        simpa using hmin (j + 1) (by omega)
      rw [this]
      rfl

/-- Converse: if there is no occurrence, firstOcc fails. -/
theorem firstOcc_eq_none {pat : List Char} (hp : pat ≠ []) (s : List Char)
    (h : ∀ i, ¬ pat <+: s.drop i) : firstOcc pat s = none := by
  cases hr : firstOcc pat s with
  | none => rfl
  | some i => exact absurd (firstOcc_some_occurs hp s i hr) (h i)

/-! Interaction of the fenced-block search with surrounding whitespace.
str.strip removes only whitespace at the two ends, while both
delimiters begin or end with a backtick, so the search is unaffected. -/

/-- A whitespace character never starts the opening delimiter. -/
theorem openPat_not_prefix_ws {c : Char} (hc : isPyWs c = true) (l : List Char) :
    openPat.isPrefixOf (c :: l) = false := by
  have hne : (btick == c) = false := by
    apply beq_eq_false_iff_ne.mpr
    intro h
    rw [← h] at hc
    exact absurd hc (by decide)
  simp [openPat, List.isPrefixOf, hne]

/-- Prepending whitespace shifts the leftmost opening delimiter. -/
theorem firstOcc_openPat_ws_prepend (a u : List Char)
    (ha : ∀ c ∈ a, isPyWs c = true) :
    firstOcc openPat (a ++ u) = (firstOcc openPat u).map (· + a.length) := by
  induction a with
  | nil =>
    cases h : firstOcc openPat u <;> simp [h]
  | cons c a ih =>
    have hc := ha c (List.mem_cons_self c a)
    have hrest : ∀ x ∈ a, isPyWs x = true := fun x hx => ha x (List.mem_cons_of_mem c hx)
    have step : firstOcc openPat (c :: (a ++ u)) =
        (firstOcc openPat (a ++ u)).map (· + 1) := by
      conv_lhs => rw [firstOcc]
      rw [openPat_not_prefix_ws hc]
      rfl
    rw [List.cons_append, step, ih hrest]
    cases h : firstOcc openPat u with
    | none => rfl
    | some n =>
      simp only [Option.map_some', Option.some.injEq, List.length_cons]
      omega

/-- The fenced-block extraction ignores a whitespace prelude. -/
theorem extractFenced_ws_prelude (a u : List Char)
    (ha : ∀ c ∈ a, isPyWs c = true) :
    extractFenced (a ++ u) = extractFenced u := by
  unfold extractFenced
  rw [firstOcc_openPat_ws_prepend a u ha]
  cases h : firstOcc openPat u with
  | none => rfl
  | some i =>
    have hd : (a ++ u).drop (i + a.length + openPat.length) =
        u.drop (i + openPat.length) := by
      rw [show i + a.length + openPat.length = a.length + (i + openPat.length) by omega,
        ← List.drop_drop, List.drop_left]
    simp only [Option.map_some']
    rw [hd]

/-- Inside the left part of an append, occurrences project back. -/
theorem prefix_drop_append_iff (pat t b : List Char) (q : Nat)
    (h : q + pat.length ≤ t.length) :
    (pat <+: (t ++ b).drop q) ↔ (pat <+: t.drop q) := by
  have hq : q ≤ t.length := le_trans (Nat.le_add_right q pat.length) h
  rw [List.drop_append_of_le_length hq]
  constructor
  · intro hp
    rw [List.prefix_iff_eq_take] at hp ⊢
    rwa [List.take_append_of_le_length (by rw [List.length_drop]; omega)] at hp
  · intro hp
    exact hp.trans (List.prefix_append (t.drop q) b)

/-- A pattern containing a backtick never occurs in all-whitespace text. -/
theorem not_prefix_of_ws (pat l : List Char) (hbt : btick ∈ pat)
    (hl : ∀ c ∈ l, isPyWs c = true) : ¬ pat <+: l := by
  intro h
  have := hl btick (h.subset hbt)
  exact absurd this (by decide)

/-- A pattern occurrence straddling the boundary into an all-whitespace
suffix forces the pattern character sitting at the boundary to be
whitespace. -/
theorem ws_at_boundary (t b : List Char) (hb : ∀ c ∈ b, isPyWs c = true)
    (pat : List Char) (q : Nat) (h : pat <+: (t ++ b).drop q)
    (hq : q ≤ t.length) (hlt : t.length - q < pat.length) :
    isPyWs (pat.getD (t.length - q) 'x') = true := by
  obtain ⟨r, hr⟩ := h
  have hb0 : 0 < b.length := by
    have hlen : pat.length + r.length = ((t ++ b).drop q).length := by
      rw [← hr, List.length_append]
    rw [List.length_drop, List.length_append] at hlen
    omega
  have e1 : ((t ++ b).drop q)[t.length - q]? = pat[t.length - q]? := by
    rw [← hr, List.getElem?_append]
    rw [if_pos hlt]
  rw [List.getElem?_drop, show q + (t.length - q) = t.length by omega] at e1
  have e2 : (t ++ b)[t.length]? = b[0]? := by
    rw [List.getElem?_append_right (le_refl t.length)]
    simp
  cases b with
  | nil => simp at hb0
  | cons b0 b' =>
    have e3 : pat[t.length - q]? = some b0 := by
      rw [← e1, e2]
      simp
    have e4 : pat.getD (t.length - q) 'x' = b0 := by
      rw [List.getD_eq_getElem?_getD, e3]
      rfl
    rw [e4]
    exact hb b0 (List.mem_cons_self b0 b')

/-- The first six characters of the opening delimiter are not whitespace. -/
theorem openPat_getD_not_ws (j : Nat) (h5 : j ≤ 5) :
    isPyWs (openPat.getD j 'x') = false := by
  interval_cases j <;> decide

/-- Every character of the closing delimiter after the first is a
backtick, hence not whitespace. -/
theorem closePat_getD_not_ws (j : Nat) (h1 : 1 ≤ j) (h3 : j ≤ 3) :
    isPyWs (closePat.getD j 'x') = false := by
  interval_cases j <;> decide

/-- An occurrence of the opening delimiter in text extended by an
all-whitespace coda either lies inside the text, or hangs off its end
with exactly the final newline of the delimiter inside the coda. -/
theorem openPat_occ_append (t b : List Char) (hb : ∀ c ∈ b, isPyWs c = true)
    (q : Nat) (h : openPat <+: (t ++ b).drop q) :
    (q + openPat.length ≤ t.length ∧ openPat <+: t.drop q) ∨ q + 6 = t.length := by
  by_cases hle : q + openPat.length ≤ t.length
  · exact Or.inl ⟨hle, (prefix_drop_append_iff openPat t b q hle).mp h⟩
  · right
    have h7 : openPat.length = 7 := rfl
    by_cases hq : t.length ≤ q
    · exfalso
      have hdrop : (t ++ b).drop q = b.drop (q - t.length) := by
        conv_lhs => rw [show q = t.length + (q - t.length) by omega]
        rw [← List.drop_drop, List.drop_left]
      rw [hdrop] at h
      exact not_prefix_of_ws openPat _ (by decide)
        (fun c hc => hb c (List.mem_of_mem_drop hc)) h
    · push_neg at hle hq
      by_contra hne
      have hws := ws_at_boundary t b hb openPat q h (by omega) (by omega)
      rw [openPat_getD_not_ws (t.length - q) (by omega)] at hws
      exact Bool.noConfusion hws

/-- An occurrence of the closing delimiter in text extended by an
all-whitespace coda always lies inside the text. -/
theorem closePat_occ_append (t b : List Char) (hb : ∀ c ∈ b, isPyWs c = true)
    (q : Nat) (h : closePat <+: (t ++ b).drop q) :
    q + closePat.length ≤ t.length ∧ closePat <+: t.drop q := by
  by_cases hle : q + closePat.length ≤ t.length
  · exact ⟨hle, (prefix_drop_append_iff closePat t b q hle).mp h⟩
  · exfalso
    have h4 : closePat.length = 4 := rfl
    by_cases hq : t.length ≤ q
    · have hdrop : (t ++ b).drop q = b.drop (q - t.length) := by
        conv_lhs => rw [show q = t.length + (q - t.length) by omega]
        rw [← List.drop_drop, List.drop_left]
      rw [hdrop] at h
      exact not_prefix_of_ws closePat _ (by decide)
        (fun c hc => hb c (List.mem_of_mem_drop hc)) h
    · push_neg at hle hq
      have hws := ws_at_boundary t b hb closePat q h (by omega) (by omega)
      rw [closePat_getD_not_ws (t.length - q) (by omega) (by omega)] at hws
      exact Bool.noConfusion hws

/-- The fenced-block extraction ignores an all-whitespace coda. -/
theorem extractFenced_ws_suffix (t b : List Char)
    (hb : ∀ c ∈ b, isPyWs c = true) :
    extractFenced (t ++ b) = extractFenced t := by
  have hop : openPat ≠ [] := by decide
  have hcp : closePat ≠ [] := by decide
  have h7 : openPat.length = 7 := rfl
  have hc4 : closePat.length = 4 := rfl
  cases h : firstOcc openPat t with
  | some i =>
    have hpre := firstOcc_some_occurs hop t i h
    have hmin := firstOcc_some_min t i h
    have hlen : i + openPat.length ≤ t.length := by
      have hh := hpre.length_le
      rw [List.length_drop] at hh
      omega
    have h1 : firstOcc openPat (t ++ b) = some i := by
      apply firstOcc_eq_some hop
      · exact (prefix_drop_append_iff openPat t b i hlen).mpr hpre
      · intro j hj hcontra
        rcases openPat_occ_append t b hb j hcontra with ⟨_, hjin⟩ | hjend
        · exact hmin j hj hjin
        · omega
    have hdrop : (t ++ b).drop (i + openPat.length) =
        t.drop (i + openPat.length) ++ b := by
      rw [List.drop_append_of_le_length hlen]
    simp only [extractFenced, h, h1, hdrop]
    cases h2 : firstOcc closePat (t.drop (i + openPat.length)) with
    | some k =>
      have hpre2 := firstOcc_some_occurs hcp _ k h2
      have hmin2 := firstOcc_some_min _ k h2
      have hlen2 : k + closePat.length ≤ (t.drop (i + openPat.length)).length := by
        have hh := hpre2.length_le
        rw [List.length_drop] at hh
        omega
      have h3 : firstOcc closePat (t.drop (i + openPat.length) ++ b) = some k := by
        apply firstOcc_eq_some hcp
        · exact (prefix_drop_append_iff closePat _ b k hlen2).mpr hpre2
        · intro j hj hcontra
          exact hmin2 j hj (closePat_occ_append _ b hb j hcontra).2
      have hk : k ≤ (t.drop (i + openPat.length)).length := by omega
      simp only [h2, h3]
      rw [List.take_append_of_le_length hk]
    | none =>
      have h3 : firstOcc closePat (t.drop (i + openPat.length) ++ b) = none := by
        apply firstOcc_eq_none hcp
        intro j hcontra
        exact firstOcc_none hcp _ h2 j (closePat_occ_append _ b hb j hcontra).2
      simp only [h2, h3]
  | none =>
    cases h' : firstOcc openPat (t ++ b) with
    | none =>
      simp only [extractFenced, h, h']
    | some p =>
      have hpre := firstOcc_some_occurs hop (t ++ b) p h'
      rcases openPat_occ_append t b hb p hpre with ⟨_, hpin⟩ | hpend
      · exact absurd hpin (firstOcc_none hop t h p)
      · have hdrop : (t ++ b).drop (p + openPat.length) = b.drop 1 := by
          conv_lhs => rw [show p + openPat.length = t.length + 1 by omega]
          rw [← List.drop_drop, List.drop_left]
        have h4 : firstOcc closePat (b.drop 1) = none := by
          apply firstOcc_eq_none hcp
          intro j
          apply not_prefix_of_ws closePat _ (by decide)
          intro c hc
          exact hb c (List.mem_of_mem_drop (List.mem_of_mem_drop hc))
        simp only [extractFenced, h, h', hdrop, h4]

/-- The fenced-block extraction ignores trailing whitespace. -/
theorem extractFenced_stripEnd (u : List Char) :
    extractFenced (stripEnd u) = extractFenced u := by
  have hd : u = stripEnd u ++ (u.reverse.takeWhile isPyWs).reverse := by
    conv_lhs => rw [← List.reverse_reverse u,
      ← List.takeWhile_append_dropWhile isPyWs u.reverse, List.reverse_append]
    rfl
  conv_rhs => rw [hd]
  rw [extractFenced_ws_suffix]
  intro c hc
  exact List.mem_takeWhile_imp (List.mem_reverse.mp hc)

/-- Stripping a string does not change what the fenced-block search
finds: the whole match begins and ends with a backtick, so it survives
str.strip, and conversely. -/
theorem extractFenced_pyStrip (s : List Char) :
    extractFenced (pyStrip s) = extractFenced s := by
  unfold pyStrip
  rw [extractFenced_stripEnd]
  conv_rhs => rw [← List.takeWhile_append_dropWhile isPyWs s]
  rw [extractFenced_ws_prelude (s.takeWhile isPyWs) (s.dropWhile isPyWs)
    (fun c hc => List.mem_takeWhile_imp hc)]

/-! Concrete fixtures used by the witnesses: a one-table database, a
tabular result, and oracles for each failure mode. -/

/-- A concrete tabular result. -/
def dfW : DataFrame := ⟨["total".data], [["5".data]]⟩

/-- A concrete introspection result: table t with columns a then b. -/
def tablesW : List (List Char × List Col) :=
  [("t".data, [⟨"a".data, "INTEGER".data⟩, ⟨"b".data, "TEXT".data⟩])]

/-- All external calls succeed; the generation reply is fenced. -/
def envOk : TurnEnv :=
  ⟨fun _ => .ok tablesW,
   fun _ _ => .ok "\x60\x60\x60sql\nSELECT * FROM t\n\x60\x60\x60".data,
   fun _ _ => .ok dfW,
   fun _ => .ok " The total is 5. ".data⟩

/-- The generation call raises. -/
def envGenFail : TurnEnv :=
  ⟨fun _ => .ok tablesW,
   fun _ _ => .error "network unreachable".data,
   fun _ _ => .ok dfW,
   fun _ => .ok " The total is 5. ".data⟩

/-- The execution raises (invalid SQL), everything else succeeds. -/
def envExecFail : TurnEnv :=
  ⟨fun _ => .ok tablesW,
   fun _ _ => .ok "SELEC 1".data,
   fun _ _ => .error "syntax error near SELEC".data,
   fun _ => .ok " The total is 5. ".data⟩

/-- The introspection raises, everything else succeeds. -/
def envSchemaFail : TurnEnv :=
  ⟨fun _ => .error "unreachable host".data,
   fun _ _ => .ok "SELECT * FROM t".data,
   fun _ _ => .ok dfW,
   fun _ => .ok " The total is 5. ".data⟩

/-- The summarization call raises, everything else succeeds. -/
def envSumFail : TurnEnv :=
  ⟨fun _ => .ok tablesW,
   fun _ _ => .ok "SELECT * FROM t".data,
   fun _ _ => .ok dfW,
   fun _ => .error "timeout".data⟩

/-- A session with a saved connection string and empty history. -/
def stW : SessionState := ⟨"sqlite:///test.db".data, []⟩

/-- C2: for every language-model reply, if the reply contains a fenced
code block tagged as SQL (the source regex of line 113), the SQL
Generator returns only the inner statement of the first such block with
surrounding whitespace trimmed; if it contains none, the Generator
returns the whole reply with surrounding whitespace trimmed. -/
theorem extract_sql_spec (reply : List Char) :
    (∀ g, extractFenced reply = some g → extract_sql reply = pyStrip g) ∧
    (extractFenced reply = none → extract_sql reply = pyStrip reply) := by
  have key : extract_sql reply =
      match extractFenced reply with
      | some g => pyStrip g
      | none => pyStrip reply := by
    simp only [extract_sql]
    rw [extractFenced_pyStrip]
  constructor
  · intro g hg
    rw [key, hg]
  · intro hn
    rw [key, hn]

/-- Witness for C2 on a concrete fenced reply. -/
theorem extract_sql_spec_witness :
    extract_sql " \x60\x60\x60sql\nSELECT * FROM t\n\x60\x60\x60 ".data =
      pyStrip "SELECT * FROM t".data :=
  (extract_sql_spec " \x60\x60\x60sql\nSELECT * FROM t\n\x60\x60\x60 ".data).1
    "SELECT * FROM t".data (by decide)

/-- C3: on any introspection failure the Schema Inspector returns the
descriptive error string on its ordinary return channel; in the
embedding it is a total function, so nothing propagates to the caller. -/
theorem get_db_schema_error (env : TurnEnv) (conn e : List Char)
    (h : env.introspect conn = .error e) :
    get_db_schema env conn = Sum.inr (connErrMsg e) := by
  unfold get_db_schema
  rw [h]

/-- Witness for C3 at the empty connection descriptor. -/
theorem get_db_schema_error_witness :
    get_db_schema envSchemaFail [] = Sum.inr (connErrMsg "unreachable host".data) :=
  get_db_schema_error envSchemaFail [] "unreachable host".data rfl

/-- C8: introspection reporting one table T with columns named a then b
yields the mapping from T to the ordered list of its column names. -/
theorem get_db_schema_columns (env : TurnEnv) (conn T a b ta tb : List Char)
    (h : env.introspect conn = .ok [(T, [⟨a, ta⟩, ⟨b, tb⟩])]) :
    get_db_schema env conn = Sum.inl [(T, [a, b])] := by
  unfold get_db_schema
  rw [h]
  simp

/-- Witness for C8 at the concrete one-table database. -/
theorem get_db_schema_columns_witness :
    get_db_schema envOk "sqlite:///test.db".data =
      Sum.inl [("t".data, ["a".data, "b".data])] :=
  get_db_schema_columns envOk "sqlite:///test.db".data "t".data "a".data "b".data
    "INTEGER".data "TEXT".data rfl

/-- C6: submitting a question while no connection descriptor is saved
shows the validation message and leaves the session state unchanged,
appending nothing. -/
theorem chatTurn_no_connection (env : TurnEnv) (st : SessionState) (prompt : List Char)
    (h : st.connection_string = []) :
    (chatTurn env st prompt).state = st ∧
    (chatTurn env st prompt).banner = some noConnMsg := by
  unfold chatTurn
  rw [h]
  exact ⟨rfl, rfl⟩

/-- Witness for C6. -/
theorem chatTurn_no_connection_witness :
    (chatTurn envOk ⟨[], []⟩ "show total sales".data).state = (⟨[], []⟩ : SessionState) ∧
    (chatTurn envOk ⟨[], []⟩ "show total sales".data).banner = some noConnMsg :=
  chatTurn_no_connection envOk ⟨[], []⟩ "show total sales".data rfl

/-- C9: processing a submitted question never changes the stored
connection descriptor, whatever the environment does. -/
theorem chatTurn_connection_frame (env : TurnEnv) (st : SessionState)
    (prompt : List Char) :
    (chatTurn env st prompt).state.connection_string = st.connection_string := by
  simp only [chatTurn]
  repeat' split
  all_goals rfl

/-- The placeholder entry is never the executor's error entry: the two
contents differ already in their first character. -/
theorem placeholder_ne_execErrMsg (e : List Char) : placeholderContent ≠ execErrMsg e := by
  intro h
  have h2 : (some ' ' : Option Char) = some 'E' := congrArg List.head? h
  simp at h2

/-- C4: a failing execution yields the executor's error string rather
than a table, and the turn appends the user entry, the placeholder, and
exactly one assistant error entry. -/
theorem chatTurn_exec_error (env : TurnEnv) (st : SessionState) (prompt r e : List Char)
    (hc : st.connection_string ≠ [])
    (hg : env.llmGenerate prompt (get_db_schema env st.connection_string) = .ok r)
    (hx : env.dbExec st.connection_string (extract_sql r) = .error e) :
    execute_sql env st.connection_string (extract_sql r) = Sum.inr (execErrMsg e) ∧
    (chatTurn env st prompt).state.messages =
      st.messages ++ [⟨Role.user, prompt⟩, ⟨Role.assistant, placeholderContent⟩,
        ⟨Role.assistant, execErrMsg e⟩] ∧
    List.countP (fun m => m.role == Role.assistant && m.content == execErrMsg e)
      [(⟨Role.user, prompt⟩ : Msg), ⟨Role.assistant, placeholderContent⟩,
        ⟨Role.assistant, execErrMsg e⟩] = 1 := by
  have hcb : st.connection_string.isEmpty = false := by simp [List.isEmpty_iff, hc]
  have hex : execute_sql env st.connection_string (extract_sql r) =
      Sum.inr (execErrMsg e) := by
    unfold execute_sql
    rw [hx]
  refine ⟨hex, ?_, ?_⟩
  · simp only [chatTurn, hcb, Bool.false_eq_true, if_false, generate_sql, hg,
      Except.map, hex]
    simp
  · have hp : (placeholderContent == execErrMsg e) = false :=
      beq_eq_false_iff_ne.mpr (placeholder_ne_execErrMsg e)
    simp [List.countP_cons, hp]

/-- Witness for C4 on the syntactically invalid statement SELEC 1. -/
theorem chatTurn_exec_error_witness :
    execute_sql envExecFail stW.connection_string (extract_sql "SELEC 1".data) =
      Sum.inr (execErrMsg "syntax error near SELEC".data) ∧
    (chatTurn envExecFail stW "list sales".data).state.messages =
      stW.messages ++ [⟨Role.user, "list sales".data⟩,
        ⟨Role.assistant, placeholderContent⟩,
        ⟨Role.assistant, execErrMsg "syntax error near SELEC".data⟩] ∧
    List.countP
      (fun m => m.role == Role.assistant &&
        m.content == execErrMsg "syntax error near SELEC".data)
      [(⟨Role.user, "list sales".data⟩ : Msg), ⟨Role.assistant, placeholderContent⟩,
        ⟨Role.assistant, execErrMsg "syntax error near SELEC".data⟩] = 1 :=
  chatTurn_exec_error envExecFail stW "list sales".data "SELEC 1".data
    "syntax error near SELEC".data (by decide) rfl rfl

/-- C5: when schema inspection, generation, execution and summarization
all succeed, exactly three entries are appended: the user entry, the
placeholder entry, and the summary entry, in that order. -/
theorem chatTurn_success_messages (env : TurnEnv) (st : SessionState)
    (prompt r s : List Char) (tables : List (List Char × List Col)) (df : DataFrame)
    (hc : st.connection_string ≠ [])
    (hs : env.introspect st.connection_string = .ok tables)
    (hg : env.llmGenerate prompt (get_db_schema env st.connection_string) = .ok r)
    (hx : env.dbExec st.connection_string (extract_sql r) = .ok df)
    (hm : env.llmSummarize df = .ok s) :
    (chatTurn env st prompt).state.messages =
      st.messages ++ [⟨Role.user, prompt⟩, ⟨Role.assistant, placeholderContent⟩,
        ⟨Role.assistant, pyStrip s⟩] := by
  have hcb : st.connection_string.isEmpty = false := by simp [List.isEmpty_iff, hc]
  simp only [chatTurn, hcb, Bool.false_eq_true, if_false, generate_sql, hg, Except.map,
    execute_sql, hx, summarize_results, hm]
  simp

/-- Witness for C5: the fully successful concrete turn. -/
theorem chatTurn_success_messages_witness :
    (chatTurn envOk stW "show total sales".data).state.messages =
      stW.messages ++ [⟨Role.user, "show total sales".data⟩,
        ⟨Role.assistant, placeholderContent⟩,
        ⟨Role.assistant, pyStrip " The total is 5. ".data⟩] :=
  chatTurn_success_messages envOk stW "show total sales".data
    "\x60\x60\x60sql\nSELECT * FROM t\n\x60\x60\x60".data " The total is 5. ".data
    tablesW dfW (by decide) rfl rfl rfl rfl

/-- C7 (amended): an exception from SQL generation or from
summarization reaches the top-level handler of the turn, is converted
to the generic error string, and is appended as the assistant entry;
the turn always completes (exceptions inside schema fetch and execution
are caught within those components instead). -/
theorem chatTurn_generic_error (env : TurnEnv) (st : SessionState)
    (prompt e r : List Char) (df : DataFrame)
    (hc : st.connection_string ≠ []) :
    (env.llmGenerate prompt (get_db_schema env st.connection_string) = .error e →
      (chatTurn env st prompt).state.messages =
        st.messages ++ [⟨Role.user, prompt⟩, ⟨Role.assistant, processErrMsg e⟩]) ∧
    (env.llmGenerate prompt (get_db_schema env st.connection_string) = .ok r →
      env.dbExec st.connection_string (extract_sql r) = .ok df →
      env.llmSummarize df = .error e →
      (chatTurn env st prompt).state.messages =
        st.messages ++ [⟨Role.user, prompt⟩, ⟨Role.assistant, placeholderContent⟩,
          ⟨Role.assistant, processErrMsg e⟩]) := by
  have hcb : st.connection_string.isEmpty = false := by simp [List.isEmpty_iff, hc]
  constructor
  · intro hg
    simp only [chatTurn, hcb, Bool.false_eq_true, if_false, generate_sql, hg, Except.map]
    simp
  · intro hg hx hm
    simp only [chatTurn, hcb, Bool.false_eq_true, if_false, generate_sql, hg, Except.map,
      execute_sql, hx, summarize_results, hm]
    simp

/-- Witness for the amended C7: the generation call raises. -/
theorem chatTurn_generic_error_witness :
    (chatTurn envGenFail stW "show total sales".data).state.messages =
      stW.messages ++ [⟨Role.user, "show total sales".data⟩,
        ⟨Role.assistant, processErrMsg "network unreachable".data⟩] :=
  (chatTurn_generic_error envGenFail stW "show total sales".data
    "network unreachable".data [] dfW (by decide)).1 rfl

/-- C7 fails as stated: here the schema fetch raises (the introspection
oracle returns an exception), yet the turn completes with three
appended entries and none of them carries the generic error string for
that exception; it was caught inside the Schema Inspector, not at the
top level, and was never appended. -/
theorem chatTurn_schema_exception_not_appended :
    (chatTurn envSchemaFail stW "show total sales".data).state.messages.length = 3 ∧
    ((chatTurn envSchemaFail stW "show total sales".data).state.messages.all
      fun m => !(m.content == processErrMsg "unreachable host".data)) = true := by
  decide

/-- C10: when the Schema Inspector fails, the handler does not inspect
the result: the error string is passed unchanged as the schema argument
of the SQL Generator, and when generation succeeds the pipeline still
proceeds to execution instead of short-circuiting. -/
theorem chatTurn_schema_error_pipeline (env : TurnEnv) (st : SessionState)
    (prompt e : List Char)
    (hc : st.connection_string ≠ [])
    (hs : env.introspect st.connection_string = .error e) :
    (chatTurn env st prompt).genArg = some (prompt, Sum.inr (connErrMsg e)) ∧
    (∀ r, env.llmGenerate prompt (Sum.inr (connErrMsg e)) = .ok r →
      (chatTurn env st prompt).execArg = some (st.connection_string, extract_sql r)) := by
  have hcb : st.connection_string.isEmpty = false := by simp [List.isEmpty_iff, hc]
  have hsch : get_db_schema env st.connection_string = Sum.inr (connErrMsg e) := by
    unfold get_db_schema
    rw [hs]
  constructor
  · simp only [chatTurn, hcb, Bool.false_eq_true, if_false, hsch]
    split
    · rfl
    · split
      · split
        · rfl
        · rfl
      · rfl
  · intro r hg
    simp only [chatTurn, hcb, Bool.false_eq_true, if_false, hsch, generate_sql, hg,
      Except.map]
    split
    · split
      · rfl
      · rfl
    · rfl

/-- Witness for C10: the introspection raises, generation succeeds, and
the turn still records the generation and execution calls. -/
theorem chatTurn_schema_error_pipeline_witness :
    (chatTurn envSchemaFail stW "show total sales".data).genArg =
      some ("show total sales".data, Sum.inr (connErrMsg "unreachable host".data)) ∧
    (chatTurn envSchemaFail stW "show total sales".data).execArg =
      some (stW.connection_string, extract_sql "SELECT * FROM t".data) := by
  have h := chatTurn_schema_error_pipeline envSchemaFail stW "show total sales".data
    "unreachable host".data (by decide) rfl
  exact ⟨h.1, h.2 "SELECT * FROM t".data rfl⟩

/-- C1 (amended): with a saved connection the history is append-only
and receives exactly one user entry followed by assistant entries only:
either the placeholder entry followed by exactly one summary-or-error
entry, or, when the generation call raises before the placeholder is
appended, a single generic error entry. -/
theorem chatTurn_append_shape (env : TurnEnv) (st : SessionState) (prompt : List Char)
    (hc : st.connection_string ≠ []) :
    (∃ e, env.llmGenerate prompt (get_db_schema env st.connection_string) = .error e ∧
      (chatTurn env st prompt).state.messages =
        st.messages ++ [⟨Role.user, prompt⟩, ⟨Role.assistant, processErrMsg e⟩]) ∨
    (∃ c, (chatTurn env st prompt).state.messages =
      st.messages ++ [⟨Role.user, prompt⟩, ⟨Role.assistant, placeholderContent⟩,
        ⟨Role.assistant, c⟩]) := by
  have hcb : st.connection_string.isEmpty = false := by simp [List.isEmpty_iff, hc]
  cases hg : env.llmGenerate prompt (get_db_schema env st.connection_string) with
  | error e =>
    refine Or.inl ⟨e, rfl, ?_⟩
    simp only [chatTurn, hcb, Bool.false_eq_true, if_false, generate_sql, hg, Except.map]
    simp
  | ok r =>
    apply Or.inr
    cases hx : env.dbExec st.connection_string (extract_sql r) with
    | ok df =>
      cases hm : env.llmSummarize df with
      | ok s =>
        refine ⟨pyStrip s, ?_⟩
        simp only [chatTurn, hcb, Bool.false_eq_true, if_false, generate_sql, hg,
          Except.map, execute_sql, hx, summarize_results, hm]
        simp
      | error e2 =>
        refine ⟨processErrMsg e2, ?_⟩
        simp only [chatTurn, hcb, Bool.false_eq_true, if_false, generate_sql, hg,
          Except.map, execute_sql, hx, summarize_results, hm]
        simp
    | error e2 =>
      refine ⟨execErrMsg e2, ?_⟩
      simp only [chatTurn, hcb, Bool.false_eq_true, if_false, generate_sql, hg,
        Except.map, execute_sql, hx]
      simp

/-- Witness for the amended C1 at the fully successful turn. -/
theorem chatTurn_append_shape_witness :
    (∃ e, envOk.llmGenerate "show total sales".data
        (get_db_schema envOk stW.connection_string) = .error e ∧
      (chatTurn envOk stW "show total sales".data).state.messages =
        stW.messages ++ [⟨Role.user, "show total sales".data⟩,
          ⟨Role.assistant, processErrMsg e⟩]) ∨
    (∃ c, (chatTurn envOk stW "show total sales".data).state.messages =
      stW.messages ++ [⟨Role.user, "show total sales".data⟩,
        ⟨Role.assistant, placeholderContent⟩, ⟨Role.assistant, c⟩]) :=
  chatTurn_append_shape envOk stW "show total sales".data (by decide)

/-- C1 fails as stated: when the generation call raises, the single
appended assistant entry is the generic error entry and no placeholder
entry precedes it, so the appended assistant entries do not consist of
a placeholder followed by a summary or error entry. -/
theorem chatTurn_no_placeholder_on_gen_error :
    ¬ ∃ tail, (chatTurn envGenFail stW "show total sales".data).state.messages =
        stW.messages ++ ⟨Role.user, "show total sales".data⟩ ::
          ⟨Role.assistant, placeholderContent⟩ :: tail := by
  intro hex
  obtain ⟨tail, h⟩ := hex
  have hm : (chatTurn envGenFail stW "show total sales".data).state.messages =
      [⟨Role.user, "show total sales".data⟩,
        ⟨Role.assistant, processErrMsg "network unreachable".data⟩] := by decide
  rw [hm] at h
  simp only [stW, List.nil_append, List.cons.injEq, Msg.mk.injEq] at h
  exact absurd h.2.1.2 (by decide)
